import Mathlib

/-!
A verification development for the adaptor layer of VeriGauge
(`adaptor/basic_adaptor.py`): the dispatch contract that turns pairwise
bound oracles into a full robustness verdict.

Shallow embedding conventions:
* Python floats are modelled as rationals (`ℚ`).
* A raw image input is a channel × height × width nested list (`Tensor3`).
* External collaborators (the classifier's scores, the dataset's class
  count, the bound engines, the MILP/SDP solvers, the PGD attack) are
  bundled in an `Env` record of pure functions; the adaptor code under
  verification is translated line by line against that record.
* Python `assert` failures (raises) are modelled by an `Option` verdict
  being `none`.
* Mutation of the adaptor instance's fields is modelled by explicit state
  passing (`RAState`), and every call the dispatcher makes into an oracle
  is recorded in an event trace (`TraceEvent`), so claims about
  short-circuiting and about oracles not being invoked are statable.
-/

namespace VeriGauge

/-- A raw input: channels × height × width of rational pixel values. -/
abbrev Tensor3 := List (List (List ℚ))

/-- Row-major flattening, the model of `input.contiguous().view(-1)`. -/
def flatten3 (x : Tensor3) : List ℚ := (x.map List.flatten).flatten

/-- The shape `[C, H, W]` of a (well-formed) raw input, the model of
`list(input.shape)`. -/
def shapeOf (x : Tensor3) : List Nat :=
  [x.length, (x.headD []).length, ((x.headD []).headD []).length]

/-- A tensor as handed to a bound engine: either still in its
3-D channel × height × width shape or flattened to 1-D. -/
inductive Tensor where
  | t3 : Tensor3 → Tensor
  | t1 : List ℚ → Tensor
deriving DecidableEq

/-- Whether a tensor handed to a bound engine is 1-D (flattened). -/
def Tensor.isFlat : Tensor → Bool
  | .t1 _ => true
  | .t3 _ => false

/-- Python's `min` on a list of rationals (unspecified at `[]`, where
Python raises). -/
def listMin : List ℚ → ℚ
  | [] => 0
  | x :: xs => xs.foldl min x

/-- Python's `max` on a list of rationals (unspecified at `[]`, where
Python raises). -/
def listMax : List ℚ → ℚ
  | [] => 0
  | x :: xs => xs.foldl max x

/-- `np.argmax`: index of the first maximal element of a score list. -/
def argmax (l : List ℚ) : Nat :=
  (List.range l.length).foldl
    (fun best i => if l.getD best 0 < l.getD i 0 then i else best) 0

/-- The normalization layer (`datasets.NormalizeLayer`).  `orig_means` and
`orig_sds` are the per-channel statistics; `means` and `sds` are, per the
spec's data model, their broadcast copies used when normalizing an input
(the `datasets.py` defining the broadcast is outside the adaptor source). -/
structure NormalizeLayer where
  orig_means : List ℚ
  orig_sds : List ℚ
  means : List ℚ
  sds : List ℚ
deriving DecidableEq

/-- The external collaborators of the adaptor layer, as pure functions:

* `numClasses` — `get_num_classes(self.dataset)`;
* `modelScores` — the classifier's score vector on a raw input
  (`self.model(xs.cuda())` on a singleton batch);
* `firstNorm` — `self.model[0]` when it is a `NormalizeLayer`;
* `sndSequential` — whether `self.model[1]` is an `nn.Sequential`;
* `boundCert` — the pairwise query `self.bound.verify(a, b)` of an
  interval/Fast-Lin engine, as a function of the input and radius stored
  by its last `calculate_bound` call;
* `prebound` — the per-layer lower/upper bound lists `self.prebound.l`,
  `self.prebound.u` after `self.prebound.calculate_bound(input, r)`;
* `milpSolve` — status and value of `self.bound.prob` after
  `construct(l, u, input, r)`, `prepare_verify(a, b)` and a Gurobi solve;
* `sdpSolve` — status and value of `self.bound.prob` after
  `self.bound.run(bl, bu, a, b)`;
* `attackPred` — `np.argmax` of the scores on the PGD attack's output. -/
structure Env where
  numClasses : Nat
  modelScores : Tensor3 → List ℚ
  firstNorm : Option NormalizeLayer
  sndSequential : Bool
  boundCert : Tensor → ℚ → Nat → Nat → Bool
  prebound : Tensor → ℚ → List (List ℚ) × List (List ℚ)
  milpSolve : List (List ℚ) → List (List ℚ) → List ℚ → ℚ → Nat → Nat → String × ℚ
  sdpSolve : List (List ℚ) → List (List ℚ) → Nat → Nat → String × ℚ
  attackPred : Tensor3 → ℚ → Nat

/-- The materialized model stored in `self.new_model`:
`model_transform` applied to the network (with the normalization layer
stripped when present and followed by an `nn.Sequential`), or — for the
IBP adaptor — the unmaterialized network itself. -/
inductive NewModel where
  | transformed (stripped : Bool) (shape : List Nat)
  | original (stripped : Bool)
deriving DecidableEq

/-- The clean prediction: arg-max of the model's scores on the raw input. -/
def cleanPred (env : Env) (x : Tensor3) : Nat := argmax (env.modelScores x)

/-- `BasicAdaptor.__init__`: the radius-scaling coefficient, `min(orig_sds)`
of the first layer when it is a `NormalizeLayer`, else `1.0`. -/
def initCoef (env : Env) : ℚ :=
  match env.firstNorm with
  | some nl => listMin nl.orig_sds
  | none => 1

/-- `RealAdaptorBase.__init__`: the valid model-input-space interval
`[in_min, in_max]`, obtained by pushing the raw bounds `0.0` and `1.0`
through the inverse normalization with worst-case mean/sd extremes. -/
def initInterval (env : Env) : ℚ × ℚ :=
  match env.firstNorm with
  | some nl =>
    let a := (0 : ℚ) - listMax nl.orig_means
    let b := (1 : ℚ) - listMin nl.orig_means
    ((if a ≤ 0 then a / listMin nl.orig_sds else a / listMax nl.orig_sds),
     (if b ≤ 0 then b / listMax nl.orig_sds else b / listMin nl.orig_sds))
  | none => (0, 1)

/-- The mutable state of a `RealAdaptorBase` instance:

* `coef`, `in_min`, `in_max` — set by the constructors;
* `new_model` — `self.new_model`, `none` while uninitialized;
* `solver_shape` — the input shape the solver state (`self.bound`, and
  `self.prebound` where present) was built for, `none` before;
* `boundMem` — the input/radius pair held inside the active bound engine
  after its last `calculate_bound` (the engine's own memory, not an
  adaptor field). -/
structure RAState where
  coef : ℚ
  in_min : ℚ
  in_max : ℚ
  new_model : Option NewModel
  solver_shape : Option (List Nat)
  boundMem : Option (Tensor × ℚ)
deriving DecidableEq

/-- `RealAdaptorBase.__init__` (through `BasicAdaptor.__init__`): the state
of a freshly constructed adaptor. -/
def mkRAState (env : Env) : RAState :=
  { coef := initCoef env
    in_min := (initInterval env).1
    in_max := (initInterval env).2
    new_model := none
    solver_shape := none
    boundMem := none }

/-- `RealAdaptorBase.build_new_model`: materialize via `model_transform`,
stripping the normalization layer when the model starts with one followed
by an `nn.Sequential`. -/
def buildNewModel (env : Env) (input : Tensor3) : NewModel :=
  .transformed (env.firstNorm.isSome && env.sndSequential) (shapeOf input)

/-- `RealAdaptorBase.input_preprocess`: per-channel `(x - mean) / sd` when
the first layer is a `NormalizeLayer`, identity otherwise. -/
def inputPreprocess (env : Env) (input : Tensor3) : Tensor3 :=
  match env.firstNorm with
  | some nl =>
    (input.zip (nl.means.zip nl.sds)).map
      (fun p => p.1.map (fun row => row.map (fun v => (v - p.2.1) / p.2.2)))
  | none => input

/-- One event of a `verify` call's interaction with the outside world. -/
inductive TraceEvent where
  | initCall (shape : List Nat)
  | calcBound (t : Tensor) (r : ℚ)
  | pairwise (a b : Nat)
  | solveCall (a b : Nat)
  | sdpRun (bl bu : List (List ℚ)) (a b : Nat)
  | attackCall (r : ℚ)
deriving DecidableEq

/-- Whether an event is the one-time lazy initialization. -/
def TraceEvent.isInit : TraceEvent → Bool
  | .initCall _ => true
  | _ => false

/-- The result of one `verify` call: the verdict (`none` models a raised
assertion), the instance state after the call, and the calls made. -/
structure VerifyOut where
  verdict : Option Bool
  state : RAState
  trace : List TraceEvent
deriving DecidableEq

/-- The per-class loop `for i in range(n): if i != label: ...` shared by
every backend: returns the aggregate verdict and the list of non-label
classes actually queried before returning (short-circuit included). -/
def pairLoop (cert : Nat → Bool) (label : Nat) : List Nat → Bool × List Nat
  | [] => (true, [])
  | i :: rest =>
    if i = label then pairLoop cert label rest
    else if cert i then
      let r := pairLoop cert label rest
      (r.1, i :: r.2)
    else (false, [i])

/-- `RealAdaptorBase.verify`, translated line by line. -/
def realVerify (env : Env) (st : RAState) (input : Tensor3) (label : Nat)
    (norm_type : String) (radius : ℚ) : VerifyOut :=
  if norm_type = "inf" then
    let doInit := st.new_model.isNone
    let st1 : RAState :=
      if doInit then
        { st with new_model := some (buildNewModel env input)
                  solver_shape := some (shapeOf input) }
      else st
    let tr0 : List TraceEvent :=
      if doInit then [.initCall (shapeOf input)] else []
    if cleanPred env input ≠ label then ⟨some false, st1, tr0⟩
    else
      let m_radius := radius / st1.coef
      let pin := flatten3 (inputPreprocess env input)
      let st2 := { st1 with boundMem := some (.t1 pin, m_radius) }
      let res := pairLoop (fun i => env.boundCert (.t1 pin) m_radius label i)
        label (List.range env.numClasses)
      ⟨some res.1, st2,
        tr0 ++ [.calcBound (.t1 pin) m_radius]
            ++ res.2.map (fun i => .pairwise label i)⟩
  else ⟨none, st, []⟩

/-- `IBPAdaptor.verify`: same dispatch, but initialization keeps the
original network (no `model_transform`) and the preprocessed input is
passed to `calculate_bound` without flattening. -/
def ibpVerify (env : Env) (st : RAState) (input : Tensor3) (label : Nat)
    (norm_type : String) (radius : ℚ) : VerifyOut :=
  if norm_type = "inf" then
    let doInit := st.new_model.isNone
    let st1 : RAState :=
      if doInit then
        { st with new_model :=
                    some (.original (env.firstNorm.isSome && env.sndSequential))
                  solver_shape := some (shapeOf input) }
      else st
    let tr0 : List TraceEvent :=
      if doInit then [.initCall (shapeOf input)] else []
    if cleanPred env input ≠ label then ⟨some false, st1, tr0⟩
    else
      let m_radius := radius / st1.coef
      let pin := inputPreprocess env input
      let st2 := { st1 with boundMem := some (.t3 pin, m_radius) }
      let res := pairLoop (fun i => env.boundCert (.t3 pin) m_radius label i)
        label (List.range env.numClasses)
      ⟨some res.1, st2,
        tr0 ++ [.calcBound (.t3 pin) m_radius]
            ++ res.2.map (fun i => .pairwise label i)⟩
  else ⟨none, st, []⟩

/-- The MILP adaptor's per-pair certification test: after the solve,
`self.bound.prob.status not in ['optimal'] or self.bound.prob.value < 0.`
sends `verify` to `False`; the pair is certified otherwise. -/
def milpCert (env : Env) (l u : List (List ℚ)) (pin : List ℚ) (r : ℚ)
    (a b : Nat) : Bool :=
  let res := env.milpSolve l u pin r a b
  res.1 = "optimal" && 0 ≤ res.2

/-- `MILPAdaptor.verify`: pre-bound pass, `construct`, then a per-class
solve whose status/value decide certification. -/
def milpVerify (env : Env) (st : RAState) (input : Tensor3) (label : Nat)
    (norm_type : String) (radius : ℚ) : VerifyOut :=
  if norm_type = "inf" then
    let doInit := st.new_model.isNone
    let st1 : RAState :=
      if doInit then
        { st with new_model := some (buildNewModel env input)
                  solver_shape := some (shapeOf input) }
      else st
    let tr0 : List TraceEvent :=
      if doInit then [.initCall (shapeOf input)] else []
    if cleanPred env input ≠ label then ⟨some false, st1, tr0⟩
    else
      let m_radius := radius / st1.coef
      let pin := flatten3 (inputPreprocess env input)
      let lu := env.prebound (.t1 pin) m_radius
      let st2 := { st1 with boundMem := some (.t1 pin, m_radius) }
      let res := pairLoop (fun i => milpCert env lu.1 lu.2 pin m_radius label i)
        label (List.range env.numClasses)
      ⟨some res.1, st2,
        tr0 ++ [.calcBound (.t1 pin) m_radius]
            ++ res.2.map (fun i => .solveCall label i)⟩
  else ⟨none, st, []⟩

/-- The SDP pre-bound clamping
`[np.maximum(l[i], 0) if i > 0 else l[i] for i in range(len(l))]`. -/
def clampPre (l : List (List ℚ)) : List (List ℚ) :=
  (List.range l.length).map
    (fun i => if 0 < i then (l.getD i []).map (fun x => max x 0) else l.getD i [])

/-- The SDP adaptor's per-pair certification test: after `run`,
`self.bound.prob.status not in ['optimal'] or self.bound.prob.value > 0.`
sends `verify` to `False`; the pair is certified otherwise. -/
def sdpCert (env : Env) (bl bu : List (List ℚ)) (a b : Nat) : Bool :=
  let res := env.sdpSolve bl bu a b
  res.1 = "optimal" && res.2 ≤ 0

/-- `PercySDPAdaptor.verify`: pre-bound pass, clamping, then a per-class
`run` whose status/value decide certification. -/
def sdpVerify (env : Env) (st : RAState) (input : Tensor3) (label : Nat)
    (norm_type : String) (radius : ℚ) : VerifyOut :=
  if norm_type = "inf" then
    let doInit := st.new_model.isNone
    let st1 : RAState :=
      if doInit then
        { st with new_model := some (buildNewModel env input)
                  solver_shape := some (shapeOf input) }
      else st
    let tr0 : List TraceEvent :=
      if doInit then [.initCall (shapeOf input)] else []
    if cleanPred env input ≠ label then ⟨some false, st1, tr0⟩
    else
      let m_radius := radius / st1.coef
      let pin := flatten3 (inputPreprocess env input)
      let lu := env.prebound (.t1 pin) m_radius
      let bl := clampPre lu.1
      let bu := clampPre lu.2
      let st2 := { st1 with boundMem := some (.t1 pin, m_radius) }
      let res := pairLoop (fun i => sdpCert env bl bu label i)
        label (List.range env.numClasses)
      ⟨some res.1, st2,
        tr0 ++ [.calcBound (.t1 pin) m_radius]
            ++ res.2.map (fun i => .sdpRun bl bu label i)⟩
  else ⟨none, st, []⟩

/-- `CleanAdaptor.verify`: the bare clean-prediction check; note it has no
norm-type assertion and ignores the radius. -/
def cleanVerify (env : Env) (input : Tensor3) (label : Nat)
    (_norm_type : String) (_radius : ℚ) : Option Bool :=
  some (decide (cleanPred env input = label))

/-- `PGDAdaptor.verify`: clean check, zero-radius fast path, then a PGD
attack; the trace records whether the attack was run. -/
def pgdVerify (env : Env) (input : Tensor3) (label : Nat)
    (norm_type : String) (radius : ℚ) : Option Bool × List TraceEvent :=
  if norm_type = "inf" then
    if cleanPred env input ≠ label then (some false, [])
    else if radius = 0 then (some true, [])
    else (some (decide (env.attackPred input radius = label)),
          [.attackCall radius])
  else (none, [])

/-- The non-label classes examined by the per-class loop, in order. -/
def others (env : Env) (label : Nat) : List Nat :=
  (List.range env.numClasses).filter (fun i => i ≠ label)

/-- The classes a short-circuiting pass over `o` actually queries: the
certified prefix plus, when one exists, the first failing class. -/
def queried (cert : Nat → Bool) (o : List Nat) : List Nat :=
  o.takeWhile cert ++ (o.dropWhile cert).take 1

/-- Model-input-space flattened form of a raw input. -/
def pinOf (env : Env) (x : Tensor3) : List ℚ := flatten3 (inputPreprocess env x)

/-- Modelled from the spec: the concrete bound engines and solver
encodings (`basic/intervalbound.py`, `basic/milp.py`, `basic/percysdp.py`,
reached through `model_transform`) are outside the adaptor source.  Per
the spec's zero-radius identity and its pairwise-certification semantics,
at radius `0` — where the perturbation ball is the single clean point —
each oracle's pairwise query for `(label, i)` succeeds exactly when the
model's score for `label` is at least its score for `i` on that input. -/
structure ZeroRadiusExact (env : Env) (x : Tensor3) (label : Nat) : Prop where
  bound1 : ∀ i, i < env.numClasses → i ≠ label →
    env.boundCert (.t1 (pinOf env x)) 0 label i =
      decide ((env.modelScores x).getD i 0 ≤ (env.modelScores x).getD label 0)
  bound3 : ∀ i, i < env.numClasses → i ≠ label →
    env.boundCert (.t3 (inputPreprocess env x)) 0 label i =
      decide ((env.modelScores x).getD i 0 ≤ (env.modelScores x).getD label 0)
  milp : ∀ i, i < env.numClasses → i ≠ label →
    milpCert env (env.prebound (.t1 (pinOf env x)) 0).1
      (env.prebound (.t1 (pinOf env x)) 0).2 (pinOf env x) 0 label i =
      decide ((env.modelScores x).getD i 0 ≤ (env.modelScores x).getD label 0)
  sdp : ∀ i, i < env.numClasses → i ≠ label →
    sdpCert env (clampPre (env.prebound (.t1 (pinOf env x)) 0).1)
      (clampPre (env.prebound (.t1 (pinOf env x)) 0).2) label i =
      decide ((env.modelScores x).getD i 0 ≤ (env.modelScores x).getD label 0)

/-- Concrete score vector of the small evaluation environment. -/
def demoScores : List ℚ := [5, 2]

/-- A small concrete environment to evaluate the development on: two
classes, constant scores, no normalization layer, and oracles whose
pairwise answers come from comparing the two scores. -/
def demoEnv : Env where
  numClasses := 2
  modelScores := fun _ => demoScores
  firstNorm := none
  sndSequential := false
  boundCert := fun _ _ a b => decide (demoScores.getD b 0 ≤ demoScores.getD a 0)
  prebound := fun t _ =>
    match t with
    | .t1 v => ([v], [v])
    | .t3 x => ([flatten3 x], [flatten3 x])
  milpSolve := fun _ _ _ _ _ _ => ("optimal", 3)
  sdpSolve := fun _ _ _ _ => ("optimal", -3)
  attackPred := fun _ _ => 0

/-- A concrete one-pixel raw input. -/
def demoInput : Tensor3 := [[[1]]]

/-- A freshly constructed adaptor state over the demo environment. -/
def demoState : RAState := mkRAState demoEnv

/-- A demo adaptor state that has already been initialized. -/
def demoReady : RAState :=
  { demoState with
      new_model := some (.transformed false [1, 1, 1])
      solver_shape := some [1, 1, 1] }

/-- A second concrete environment whose bound oracle refuses every
pairwise query, to exercise the short-circuit path. -/
def demoEnvRefuse : Env :=
  { demoEnv with
      numClasses := 3
      modelScores := fun _ => [5, 2, 1]
      boundCert := fun _ _ _ _ => false
      milpSolve := fun _ _ _ _ _ _ => ("infeasible", -1)
      sdpSolve := fun _ _ _ _ => ("infeasible", 1) }

/-- A concrete normalization layer (per-channel mean 0, sd 2). -/
def demoNL : NormalizeLayer :=
  { orig_means := [0], orig_sds := [2], means := [0], sds := [2] }

/-- The demo environment with a normalization layer in front. -/
def demoEnvNorm : Env := { demoEnv with firstNorm := some demoNL }

theorem pairLoop_eq (cert : Nat → Bool) (label : Nat) (L : List Nat) :
    pairLoop cert label L =
      ((L.filter (fun i => i ≠ label)).all cert,
       queried cert (L.filter (fun i => i ≠ label))) := by
  induction L with
  | nil => simp [pairLoop, queried]
  | cons i rest ih =>
    by_cases hi : i = label
    · simp [pairLoop, hi, ih]
    · by_cases hc : cert i
      · simp [pairLoop, queried, hi, hc, ih]
      · simp [pairLoop, queried, hi, hc]

theorem foldl_min_le (a : ℚ) (l : List ℚ) :
    l.foldl min a ≤ a ∧ ∀ x ∈ l, l.foldl min a ≤ x := by
  induction l generalizing a with
  | nil => simp
  | cons y ys ih =>
    simp only [List.foldl_cons]
    refine ⟨le_trans (ih (min a y)).1 (min_le_left a y), ?_⟩
    intro x hx
    rcases List.mem_cons.mp hx with h | h
    · subst h
      exact le_trans (ih (min a x)).1 (min_le_right a x)
    · exact (ih (min a y)).2 x h

theorem foldl_min_mem (a : ℚ) (l : List ℚ) :
    l.foldl min a = a ∨ l.foldl min a ∈ l := by
  induction l generalizing a with
  | nil => exact Or.inl rfl
  | cons y ys ih =>
    rcases ih (min a y) with h | h
    · rcases min_choice a y with hm | hm
      · exact Or.inl (by rw [List.foldl_cons, h, hm])
      · exact Or.inr (List.mem_cons.mpr (Or.inl (by rw [List.foldl_cons, h, hm])))
    · exact Or.inr (List.mem_cons.mpr (Or.inr h))

theorem listMin_le (l : List ℚ) (x : ℚ) (hx : x ∈ l) : listMin l ≤ x := by
  match l with
  | y :: ys =>
    rcases List.mem_cons.mp hx with h | h
    · exact h ▸ (foldl_min_le y ys).1
    · exact (foldl_min_le y ys).2 x h

theorem listMin_mem (l : List ℚ) (h : l ≠ []) : listMin l ∈ l := by
  match l with
  | y :: ys =>
    rcases foldl_min_mem y ys with h1 | h1
    · exact List.mem_cons.mpr (Or.inl h1)
    · exact List.mem_cons.mpr (Or.inr h1)

theorem foldl_max_ge (a : ℚ) (l : List ℚ) :
    a ≤ l.foldl max a ∧ ∀ x ∈ l, x ≤ l.foldl max a := by
  induction l generalizing a with
  | nil => simp
  | cons y ys ih =>
    simp only [List.foldl_cons]
    refine ⟨le_trans (le_max_left a y) (ih (max a y)).1, ?_⟩
    intro x hx
    rcases List.mem_cons.mp hx with h | h
    · subst h
      exact le_trans (le_max_right a x) (ih (max a x)).1
    · exact (ih (max a y)).2 x h

theorem listMax_ge (l : List ℚ) (x : ℚ) (hx : x ∈ l) : x ≤ listMax l := by
  match l with
  | y :: ys =>
    rcases List.mem_cons.mp hx with h | h
    · exact h ▸ (foldl_max_ge y ys).1
    · exact (foldl_max_ge y ys).2 x h

theorem foldl_argmax_ge (l : List ℚ) (idxs : List Nat) (b : Nat) :
    l.getD b 0 ≤
      l.getD (idxs.foldl
        (fun best i => if l.getD best 0 < l.getD i 0 then i else best) b) 0 ∧
    ∀ j ∈ idxs, l.getD j 0 ≤
      l.getD (idxs.foldl
        (fun best i => if l.getD best 0 < l.getD i 0 then i else best) b) 0 := by
  induction idxs generalizing b with
  | nil => simp
  | cons i rest ih =>
    have hstep : l.getD b 0 ≤ l.getD (if l.getD b 0 < l.getD i 0 then i else b) 0 := by
      by_cases hlt : l.getD b 0 < l.getD i 0
      · rw [if_pos hlt]; exact le_of_lt hlt
      · rw [if_neg hlt]
    have hstepi : l.getD i 0 ≤ l.getD (if l.getD b 0 < l.getD i 0 then i else b) 0 := by
      by_cases hlt : l.getD b 0 < l.getD i 0
      · rw [if_pos hlt]
      · rw [if_neg hlt]; exact le_of_not_lt hlt
    simp only [List.foldl_cons]
    refine ⟨le_trans hstep (ih _).1, ?_⟩
    intro j hj
    rcases List.mem_cons.mp hj with h | h
    · subst h
      exact le_trans hstepi (ih _).1
    · exact (ih _).2 j h

theorem argmax_ge (l : List ℚ) (j : Nat) (hj : j < l.length) :
    l.getD j 0 ≤ l.getD (argmax l) 0 :=
  (foldl_argmax_ge l (List.range l.length) 0).2 j (List.mem_range.mpr hj)

theorem realVerify_not_inf (env : Env) (st : RAState) (x : Tensor3) (label : Nat)
    (nt : String) (r : ℚ) (h : nt ≠ "inf") :
    realVerify env st x label nt r = ⟨none, st, []⟩ := by
  simp [realVerify, h]

theorem realVerify_unclean (env : Env) (st : RAState) (x : Tensor3) (label : Nat)
    (r : ℚ) (h : cleanPred env x ≠ label) :
    realVerify env st x label "inf" r =
      ⟨some false,
       if st.new_model.isNone then
         { st with new_model := some (buildNewModel env x)
                   solver_shape := some (shapeOf x) }
       else st,
       if st.new_model.isNone then [.initCall (shapeOf x)] else []⟩ := by
  simp [realVerify, h]

theorem realVerify_clean (env : Env) (st : RAState) (x : Tensor3) (label : Nat)
    (r : ℚ) (h : cleanPred env x = label) :
    realVerify env st x label "inf" r =
      ⟨some ((others env label).all
          (fun i => env.boundCert (.t1 (pinOf env x)) (r / st.coef) label i)),
       { st with
           new_model :=
             if st.new_model.isNone then some (buildNewModel env x) else st.new_model
           solver_shape :=
             if st.new_model.isNone then some (shapeOf x) else st.solver_shape
           boundMem := some (.t1 (pinOf env x), r / st.coef) },
       (if st.new_model.isNone then [TraceEvent.initCall (shapeOf x)] else [])
         ++ [.calcBound (.t1 (pinOf env x)) (r / st.coef)]
         ++ (queried (fun i => env.boundCert (.t1 (pinOf env x)) (r / st.coef) label i)
              (others env label)).map (fun i => .pairwise label i)⟩ := by
  rcases hm : st.new_model with _ | m <;>
    simp [realVerify, h, hm, pairLoop_eq, others, pinOf]

theorem ibpVerify_not_inf (env : Env) (st : RAState) (x : Tensor3) (label : Nat)
    (nt : String) (r : ℚ) (h : nt ≠ "inf") :
    ibpVerify env st x label nt r = ⟨none, st, []⟩ := by
  simp [ibpVerify, h]

theorem ibpVerify_unclean (env : Env) (st : RAState) (x : Tensor3) (label : Nat)
    (r : ℚ) (h : cleanPred env x ≠ label) :
    ibpVerify env st x label "inf" r =
      ⟨some false,
       if st.new_model.isNone then
         { st with new_model :=
                     some (.original (env.firstNorm.isSome && env.sndSequential))
                   solver_shape := some (shapeOf x) }
       else st,
       if st.new_model.isNone then [.initCall (shapeOf x)] else []⟩ := by
  simp [ibpVerify, h]

theorem ibpVerify_clean (env : Env) (st : RAState) (x : Tensor3) (label : Nat)
    (r : ℚ) (h : cleanPred env x = label) :
    ibpVerify env st x label "inf" r =
      ⟨some ((others env label).all
          (fun i => env.boundCert (.t3 (inputPreprocess env x)) (r / st.coef) label i)),
       { st with
           new_model :=
             if st.new_model.isNone then
               some (.original (env.firstNorm.isSome && env.sndSequential))
             else st.new_model
           solver_shape :=
             if st.new_model.isNone then some (shapeOf x) else st.solver_shape
           boundMem := some (.t3 (inputPreprocess env x), r / st.coef) },
       (if st.new_model.isNone then [TraceEvent.initCall (shapeOf x)] else [])
         ++ [.calcBound (.t3 (inputPreprocess env x)) (r / st.coef)]
         ++ (queried
              (fun i => env.boundCert (.t3 (inputPreprocess env x)) (r / st.coef) label i)
              (others env label)).map (fun i => .pairwise label i)⟩ := by
  rcases hm : st.new_model with _ | m <;>
    simp [ibpVerify, h, hm, pairLoop_eq, others]

theorem milpVerify_not_inf (env : Env) (st : RAState) (x : Tensor3) (label : Nat)
    (nt : String) (r : ℚ) (h : nt ≠ "inf") :
    milpVerify env st x label nt r = ⟨none, st, []⟩ := by
  simp [milpVerify, h]

theorem milpVerify_unclean (env : Env) (st : RAState) (x : Tensor3) (label : Nat)
    (r : ℚ) (h : cleanPred env x ≠ label) :
    milpVerify env st x label "inf" r =
      ⟨some false,
       if st.new_model.isNone then
         { st with new_model := some (buildNewModel env x)
                   solver_shape := some (shapeOf x) }
       else st,
       if st.new_model.isNone then [.initCall (shapeOf x)] else []⟩ := by
  simp [milpVerify, h]

theorem milpVerify_clean (env : Env) (st : RAState) (x : Tensor3) (label : Nat)
    (r : ℚ) (h : cleanPred env x = label) :
    milpVerify env st x label "inf" r =
      ⟨some ((others env label).all
          (fun i => milpCert env (env.prebound (.t1 (pinOf env x)) (r / st.coef)).1
            (env.prebound (.t1 (pinOf env x)) (r / st.coef)).2
            (pinOf env x) (r / st.coef) label i)),
       { st with
           new_model :=
             if st.new_model.isNone then some (buildNewModel env x) else st.new_model
           solver_shape :=
             if st.new_model.isNone then some (shapeOf x) else st.solver_shape
           boundMem := some (.t1 (pinOf env x), r / st.coef) },
       (if st.new_model.isNone then [TraceEvent.initCall (shapeOf x)] else [])
         ++ [.calcBound (.t1 (pinOf env x)) (r / st.coef)]
         ++ (queried
              (fun i => milpCert env (env.prebound (.t1 (pinOf env x)) (r / st.coef)).1
                (env.prebound (.t1 (pinOf env x)) (r / st.coef)).2
                (pinOf env x) (r / st.coef) label i)
              (others env label)).map (fun i => .solveCall label i)⟩ := by
  rcases hm : st.new_model with _ | m <;>
    simp [milpVerify, h, hm, pairLoop_eq, others, pinOf]

theorem sdpVerify_not_inf (env : Env) (st : RAState) (x : Tensor3) (label : Nat)
    (nt : String) (r : ℚ) (h : nt ≠ "inf") :
    sdpVerify env st x label nt r = ⟨none, st, []⟩ := by
  simp [sdpVerify, h]

theorem sdpVerify_unclean (env : Env) (st : RAState) (x : Tensor3) (label : Nat)
    (r : ℚ) (h : cleanPred env x ≠ label) :
    sdpVerify env st x label "inf" r =
      ⟨some false,
       if st.new_model.isNone then
         { st with new_model := some (buildNewModel env x)
                   solver_shape := some (shapeOf x) }
       else st,
       if st.new_model.isNone then [.initCall (shapeOf x)] else []⟩ := by
  simp [sdpVerify, h]

theorem sdpVerify_clean (env : Env) (st : RAState) (x : Tensor3) (label : Nat)
    (r : ℚ) (h : cleanPred env x = label) :
    sdpVerify env st x label "inf" r =
      ⟨some ((others env label).all
          (fun i => sdpCert env
            (clampPre (env.prebound (.t1 (pinOf env x)) (r / st.coef)).1)
            (clampPre (env.prebound (.t1 (pinOf env x)) (r / st.coef)).2) label i)),
       { st with
           new_model :=
             if st.new_model.isNone then some (buildNewModel env x) else st.new_model
           solver_shape :=
             if st.new_model.isNone then some (shapeOf x) else st.solver_shape
           boundMem := some (.t1 (pinOf env x), r / st.coef) },
       (if st.new_model.isNone then [TraceEvent.initCall (shapeOf x)] else [])
         ++ [.calcBound (.t1 (pinOf env x)) (r / st.coef)]
         ++ (queried
              (fun i => sdpCert env
                (clampPre (env.prebound (.t1 (pinOf env x)) (r / st.coef)).1)
                (clampPre (env.prebound (.t1 (pinOf env x)) (r / st.coef)).2) label i)
              (others env label)).map
              (fun i => .sdpRun
                (clampPre (env.prebound (.t1 (pinOf env x)) (r / st.coef)).1)
                (clampPre (env.prebound (.t1 (pinOf env x)) (r / st.coef)).2) label i)⟩ := by
  rcases hm : st.new_model with _ | m <;>
    simp [sdpVerify, h, hm, pairLoop_eq, others, pinOf]

theorem clampPre_length (l : List (List ℚ)) : (clampPre l).length = l.length := by
  simp [clampPre]

theorem clampPre_getD (l : List (List ℚ)) (i : Nat) (hi : i < l.length) :
    (clampPre l).getD i [] =
      if 0 < i then (l.getD i []).map (fun x => max x 0) else l.getD i [] := by
  have hlen : i < ((List.range l.length).map
      (fun i => if 0 < i then (l.getD i []).map (fun x => max x 0)
                else l.getD i [])).length := by
    simpa using hi
  rw [clampPre, List.getD_eq_getElem _ _ hlen]
  simp

theorem all_others_iff (env : Env) (label : Nat) (cert : Nat → Bool) :
    (others env label).all cert = true ↔
      ∀ i, i < env.numClasses → i ≠ label → cert i = true := by
  simp only [others, List.all_eq_true, List.mem_filter, List.mem_range,
    decide_eq_true_eq, and_imp]

theorem filter_isInit_map (f : Nat → TraceEvent)
    (hf : ∀ i, TraceEvent.isInit (f i) = false) (L : List Nat) :
    (L.map f).filter TraceEvent.isInit = [] := by
  induction L with
  | nil => rfl
  | cons a l ih => simp [hf, ih]

theorem realVerify_params (env : Env) (st : RAState) (x : Tensor3) (label : Nat)
    (nt : String) (r : ℚ) :
    (realVerify env st x label nt r).state.coef = st.coef ∧
    (realVerify env st x label nt r).state.in_min = st.in_min ∧
    (realVerify env st x label nt r).state.in_max = st.in_max := by
  by_cases hn : nt = "inf"
  · subst hn
    by_cases h : cleanPred env x = label
    · rw [realVerify_clean env st x label r h]
      rcases hm : st.new_model with _ | m <;> simp [hm]
    · rw [realVerify_unclean env st x label r h]
      rcases hm : st.new_model with _ | m <;> simp [hm]
  · rw [realVerify_not_inf env st x label nt r hn]
    exact ⟨rfl, rfl, rfl⟩

theorem ibpVerify_params (env : Env) (st : RAState) (x : Tensor3) (label : Nat)
    (nt : String) (r : ℚ) :
    (ibpVerify env st x label nt r).state.coef = st.coef ∧
    (ibpVerify env st x label nt r).state.in_min = st.in_min ∧
    (ibpVerify env st x label nt r).state.in_max = st.in_max := by
  by_cases hn : nt = "inf"
  · subst hn
    by_cases h : cleanPred env x = label
    · rw [ibpVerify_clean env st x label r h]
      rcases hm : st.new_model with _ | m <;> simp [hm]
    · rw [ibpVerify_unclean env st x label r h]
      rcases hm : st.new_model with _ | m <;> simp [hm]
  · rw [ibpVerify_not_inf env st x label nt r hn]
    exact ⟨rfl, rfl, rfl⟩

theorem milpVerify_params (env : Env) (st : RAState) (x : Tensor3) (label : Nat)
    (nt : String) (r : ℚ) :
    (milpVerify env st x label nt r).state.coef = st.coef ∧
    (milpVerify env st x label nt r).state.in_min = st.in_min ∧
    (milpVerify env st x label nt r).state.in_max = st.in_max := by
  by_cases hn : nt = "inf"
  · subst hn
    by_cases h : cleanPred env x = label
    · rw [milpVerify_clean env st x label r h]
      rcases hm : st.new_model with _ | m <;> simp [hm]
    · rw [milpVerify_unclean env st x label r h]
      rcases hm : st.new_model with _ | m <;> simp [hm]
  · rw [milpVerify_not_inf env st x label nt r hn]
    exact ⟨rfl, rfl, rfl⟩

theorem sdpVerify_params (env : Env) (st : RAState) (x : Tensor3) (label : Nat)
    (nt : String) (r : ℚ) :
    (sdpVerify env st x label nt r).state.coef = st.coef ∧
    (sdpVerify env st x label nt r).state.in_min = st.in_min ∧
    (sdpVerify env st x label nt r).state.in_max = st.in_max := by
  by_cases hn : nt = "inf"
  · subst hn
    by_cases h : cleanPred env x = label
    · rw [sdpVerify_clean env st x label r h]
      rcases hm : st.new_model with _ | m <;> simp [hm]
    · rw [sdpVerify_unclean env st x label r h]
      rcases hm : st.new_model with _ | m <;> simp [hm]
  · rw [sdpVerify_not_inf env st x label nt r hn]
    exact ⟨rfl, rfl, rfl⟩

theorem realVerify_calcBound_char (env : Env) (st : RAState) (x : Tensor3)
    (label : Nat) (r : ℚ) :
    ∀ t ρ, TraceEvent.calcBound t ρ ∈ (realVerify env st x label "inf" r).trace →
      t = .t1 (pinOf env x) ∧ ρ = r / st.coef := by
  intro t ρ hm
  by_cases h : cleanPred env x = label
  · rw [realVerify_clean env st x label r h] at hm
    rcases hnm : st.new_model with _ | m <;> rw [hnm] at hm <;> simp at hm <;> exact hm
  · rw [realVerify_unclean env st x label r h] at hm
    rcases hnm : st.new_model with _ | m <;> rw [hnm] at hm <;> simp at hm

theorem ibpVerify_calcBound_char (env : Env) (st : RAState) (x : Tensor3)
    (label : Nat) (r : ℚ) :
    ∀ t ρ, TraceEvent.calcBound t ρ ∈ (ibpVerify env st x label "inf" r).trace →
      t = .t3 (inputPreprocess env x) ∧ ρ = r / st.coef := by
  intro t ρ hm
  by_cases h : cleanPred env x = label
  · rw [ibpVerify_clean env st x label r h] at hm
    rcases hnm : st.new_model with _ | m <;> rw [hnm] at hm <;> simp at hm <;> exact hm
  · rw [ibpVerify_unclean env st x label r h] at hm
    rcases hnm : st.new_model with _ | m <;> rw [hnm] at hm <;> simp at hm

theorem milpVerify_calcBound_char (env : Env) (st : RAState) (x : Tensor3)
    (label : Nat) (r : ℚ) :
    ∀ t ρ, TraceEvent.calcBound t ρ ∈ (milpVerify env st x label "inf" r).trace →
      t = .t1 (pinOf env x) ∧ ρ = r / st.coef := by
  intro t ρ hm
  by_cases h : cleanPred env x = label
  · rw [milpVerify_clean env st x label r h] at hm
    rcases hnm : st.new_model with _ | m <;> rw [hnm] at hm <;> simp at hm <;> exact hm
  · rw [milpVerify_unclean env st x label r h] at hm
    rcases hnm : st.new_model with _ | m <;> rw [hnm] at hm <;> simp at hm

theorem sdpVerify_calcBound_char (env : Env) (st : RAState) (x : Tensor3)
    (label : Nat) (r : ℚ) :
    ∀ t ρ, TraceEvent.calcBound t ρ ∈ (sdpVerify env st x label "inf" r).trace →
      t = .t1 (pinOf env x) ∧ ρ = r / st.coef := by
  intro t ρ hm
  by_cases h : cleanPred env x = label
  · rw [sdpVerify_clean env st x label r h] at hm
    rcases hnm : st.new_model with _ | m <;> rw [hnm] at hm <;> simp at hm <;> exact hm
  · rw [sdpVerify_unclean env st x label r h] at hm
    rcases hnm : st.new_model with _ | m <;> rw [hnm] at hm <;> simp at hm

theorem realVerify_calcBound_present (env : Env) (st : RAState) (x : Tensor3)
    (label : Nat) (r : ℚ) (h : cleanPred env x = label) :
    TraceEvent.calcBound (.t1 (pinOf env x)) (r / st.coef) ∈
      (realVerify env st x label "inf" r).trace := by
  rw [realVerify_clean env st x label r h]
  rcases hnm : st.new_model with _ | m <;> simp

theorem ibpVerify_calcBound_present (env : Env) (st : RAState) (x : Tensor3)
    (label : Nat) (r : ℚ) (h : cleanPred env x = label) :
    TraceEvent.calcBound (.t3 (inputPreprocess env x)) (r / st.coef) ∈
      (ibpVerify env st x label "inf" r).trace := by
  rw [ibpVerify_clean env st x label r h]
  rcases hnm : st.new_model with _ | m <;> simp

theorem milpVerify_calcBound_present (env : Env) (st : RAState) (x : Tensor3)
    (label : Nat) (r : ℚ) (h : cleanPred env x = label) :
    TraceEvent.calcBound (.t1 (pinOf env x)) (r / st.coef) ∈
      (milpVerify env st x label "inf" r).trace := by
  rw [milpVerify_clean env st x label r h]
  rcases hnm : st.new_model with _ | m <;> simp

theorem sdpVerify_calcBound_present (env : Env) (st : RAState) (x : Tensor3)
    (label : Nat) (r : ℚ) (h : cleanPred env x = label) :
    TraceEvent.calcBound (.t1 (pinOf env x)) (r / st.coef) ∈
      (sdpVerify env st x label "inf" r).trace := by
  rw [sdpVerify_clean env st x label r h]
  rcases hnm : st.new_model with _ | m <;> simp

theorem filter_isInit_map_pairwise (a : Nat) (L : List Nat) :
    (L.map (fun i => TraceEvent.pairwise a i)).filter TraceEvent.isInit = [] :=
  filter_isInit_map (fun i => TraceEvent.pairwise a i) (fun _ => rfl) L

theorem filter_isInit_map_solve (a : Nat) (L : List Nat) :
    (L.map (fun i => TraceEvent.solveCall a i)).filter TraceEvent.isInit = [] :=
  filter_isInit_map (fun i => TraceEvent.solveCall a i) (fun _ => rfl) L

theorem filter_isInit_map_sdp (bl bu : List (List ℚ)) (a : Nat) (L : List Nat) :
    (L.map (fun i => TraceEvent.sdpRun bl bu a i)).filter TraceEvent.isInit = [] :=
  filter_isInit_map (fun i => TraceEvent.sdpRun bl bu a i) (fun _ => rfl) L

theorem realVerify_init_once (env : Env) (st : RAState) (x : Tensor3)
    (label : Nat) (r : ℚ) :
    (realVerify env st x label "inf" r).state.new_model =
      (if st.new_model.isNone then some (buildNewModel env x) else st.new_model) ∧
    (realVerify env st x label "inf" r).state.solver_shape =
      (if st.new_model.isNone then some (shapeOf x) else st.solver_shape) ∧
    (realVerify env st x label "inf" r).trace.filter TraceEvent.isInit =
      (if st.new_model.isNone then [TraceEvent.initCall (shapeOf x)] else []) := by
  by_cases h : cleanPred env x = label
  · rw [realVerify_clean env st x label r h]
    rcases hnm : st.new_model with _ | m <;>
      simp [hnm, List.filter_append, filter_isInit_map_pairwise, TraceEvent.isInit]
  · rw [realVerify_unclean env st x label r h]
    rcases hnm : st.new_model with _ | m <;> simp [hnm, TraceEvent.isInit]

theorem ibpVerify_init_once (env : Env) (st : RAState) (x : Tensor3)
    (label : Nat) (r : ℚ) :
    (ibpVerify env st x label "inf" r).state.new_model =
      (if st.new_model.isNone then
        some (.original (env.firstNorm.isSome && env.sndSequential))
       else st.new_model) ∧
    (ibpVerify env st x label "inf" r).state.solver_shape =
      (if st.new_model.isNone then some (shapeOf x) else st.solver_shape) ∧
    (ibpVerify env st x label "inf" r).trace.filter TraceEvent.isInit =
      (if st.new_model.isNone then [TraceEvent.initCall (shapeOf x)] else []) := by
  by_cases h : cleanPred env x = label
  · rw [ibpVerify_clean env st x label r h]
    rcases hnm : st.new_model with _ | m <;>
      simp [hnm, List.filter_append, filter_isInit_map_pairwise, TraceEvent.isInit]
  · rw [ibpVerify_unclean env st x label r h]
    rcases hnm : st.new_model with _ | m <;> simp [hnm, TraceEvent.isInit]

theorem milpVerify_init_once (env : Env) (st : RAState) (x : Tensor3)
    (label : Nat) (r : ℚ) :
    (milpVerify env st x label "inf" r).state.new_model =
      (if st.new_model.isNone then some (buildNewModel env x) else st.new_model) ∧
    (milpVerify env st x label "inf" r).state.solver_shape =
      (if st.new_model.isNone then some (shapeOf x) else st.solver_shape) ∧
    (milpVerify env st x label "inf" r).trace.filter TraceEvent.isInit =
      (if st.new_model.isNone then [TraceEvent.initCall (shapeOf x)] else []) := by
  by_cases h : cleanPred env x = label
  · rw [milpVerify_clean env st x label r h]
    rcases hnm : st.new_model with _ | m <;>
      simp [hnm, List.filter_append, filter_isInit_map_solve, TraceEvent.isInit]
  · rw [milpVerify_unclean env st x label r h]
    rcases hnm : st.new_model with _ | m <;> simp [hnm, TraceEvent.isInit]

theorem sdpVerify_init_once (env : Env) (st : RAState) (x : Tensor3)
    (label : Nat) (r : ℚ) :
    (sdpVerify env st x label "inf" r).state.new_model =
      (if st.new_model.isNone then some (buildNewModel env x) else st.new_model) ∧
    (sdpVerify env st x label "inf" r).state.solver_shape =
      (if st.new_model.isNone then some (shapeOf x) else st.solver_shape) ∧
    (sdpVerify env st x label "inf" r).trace.filter TraceEvent.isInit =
      (if st.new_model.isNone then [TraceEvent.initCall (shapeOf x)] else []) := by
  by_cases h : cleanPred env x = label
  · rw [sdpVerify_clean env st x label r h]
    rcases hnm : st.new_model with _ | m <;>
      simp [hnm, List.filter_append, filter_isInit_map_sdp, TraceEvent.isInit]
  · rw [sdpVerify_unclean env st x label r h]
    rcases hnm : st.new_model with _ | m <;> simp [hnm, TraceEvent.isInit]

/-- C1: for a bound-propagation adaptor (the shared base dispatcher, and
the IBP override) whose clean prediction equals `label`, `verify` at the
infinity norm returns `True` iff the pairwise oracle certifies
`(label, i)` for every other class index below the dataset's class
count; the loop queries exactly the certified prefix of the non-label
classes plus the first failing one, so on the first failure it returns
`False` without invoking the oracle on any subsequent class. -/
theorem C1_pairwise_short_circuit (env : Env) (st : RAState) (x : Tensor3)
    (label : Nat) (r : ℚ) (h : cleanPred env x = label) :
    ((realVerify env st x label "inf" r).verdict =
        some ((others env label).all
          (fun i => env.boundCert (.t1 (pinOf env x)) (r / st.coef) label i))) ∧
    ((realVerify env st x label "inf" r).verdict = some true ↔
      ∀ i, i < env.numClasses → i ≠ label →
        env.boundCert (.t1 (pinOf env x)) (r / st.coef) label i = true) ∧
    ((realVerify env st x label "inf" r).trace =
      (if st.new_model.isNone then [TraceEvent.initCall (shapeOf x)] else [])
        ++ [.calcBound (.t1 (pinOf env x)) (r / st.coef)]
        ++ (queried (fun i => env.boundCert (.t1 (pinOf env x)) (r / st.coef) label i)
             (others env label)).map (fun i => .pairwise label i)) ∧
    ((ibpVerify env st x label "inf" r).verdict = some true ↔
      ∀ i, i < env.numClasses → i ≠ label →
        env.boundCert (.t3 (inputPreprocess env x)) (r / st.coef) label i = true) ∧
    ((ibpVerify env st x label "inf" r).trace =
      (if st.new_model.isNone then [TraceEvent.initCall (shapeOf x)] else [])
        ++ [.calcBound (.t3 (inputPreprocess env x)) (r / st.coef)]
        ++ (queried
             (fun i => env.boundCert (.t3 (inputPreprocess env x)) (r / st.coef) label i)
             (others env label)).map (fun i => .pairwise label i)) := by
  have hr := realVerify_clean env st x label r h
  have hi := ibpVerify_clean env st x label r h
  refine ⟨by rw [hr], ?_, by rw [hr], ?_, by rw [hi]⟩
  · rw [hr]
    simpa using all_others_iff env label
      (fun i => env.boundCert (.t1 (pinOf env x)) (r / st.coef) label i)
  · rw [hi]
    simpa using all_others_iff env label
      (fun i => env.boundCert (.t3 (inputPreprocess env x)) (r / st.coef) label i)

theorem C1_witness :
    (realVerify demoEnvRefuse demoState demoInput 0 "inf" 5).verdict = some false ∧
    (realVerify demoEnvRefuse demoState demoInput 0 "inf" 5).trace =
      [.initCall [1, 1, 1], .calcBound (.t1 [1]) (5 / demoState.coef), .pairwise 0 1] := by
  have h := C1_pairwise_short_circuit demoEnvRefuse demoState demoInput 0 5 (by decide)
  refine ⟨?_, ?_⟩
  · rw [h.1]; rfl
  · rw [h.2.2.1]; rfl

/-- C2: in the per-class solver loop, the MILP adaptor certifies a pair
exactly when the solver status is "optimal" and the value is ≥ 0, the SDP
adaptor exactly when the status is "optimal" and the value is ≤ 0; a
failing pair yields the `False` verdict, never a raise (the verdict stays
a `some`). -/
theorem C2_solver_sign_conventions (env : Env) (st : RAState) (x : Tensor3)
    (label : Nat) (r : ℚ) (h : cleanPred env x = label) :
    (∀ a b,
      milpCert env (env.prebound (.t1 (pinOf env x)) (r / st.coef)).1
          (env.prebound (.t1 (pinOf env x)) (r / st.coef)).2
          (pinOf env x) (r / st.coef) a b = true ↔
        (env.milpSolve (env.prebound (.t1 (pinOf env x)) (r / st.coef)).1
            (env.prebound (.t1 (pinOf env x)) (r / st.coef)).2
            (pinOf env x) (r / st.coef) a b).1 = "optimal" ∧
        0 ≤ (env.milpSolve (env.prebound (.t1 (pinOf env x)) (r / st.coef)).1
            (env.prebound (.t1 (pinOf env x)) (r / st.coef)).2
            (pinOf env x) (r / st.coef) a b).2) ∧
    ((milpVerify env st x label "inf" r).verdict = some true ↔
      ∀ i, i < env.numClasses → i ≠ label →
        milpCert env (env.prebound (.t1 (pinOf env x)) (r / st.coef)).1
          (env.prebound (.t1 (pinOf env x)) (r / st.coef)).2
          (pinOf env x) (r / st.coef) label i = true) ∧
    ((milpVerify env st x label "inf" r).verdict ≠ some true →
      (milpVerify env st x label "inf" r).verdict = some false) ∧
    (∀ a b,
      sdpCert env (clampPre (env.prebound (.t1 (pinOf env x)) (r / st.coef)).1)
          (clampPre (env.prebound (.t1 (pinOf env x)) (r / st.coef)).2) a b = true ↔
        (env.sdpSolve (clampPre (env.prebound (.t1 (pinOf env x)) (r / st.coef)).1)
            (clampPre (env.prebound (.t1 (pinOf env x)) (r / st.coef)).2) a b).1
          = "optimal" ∧
        (env.sdpSolve (clampPre (env.prebound (.t1 (pinOf env x)) (r / st.coef)).1)
            (clampPre (env.prebound (.t1 (pinOf env x)) (r / st.coef)).2) a b).2 ≤ 0) ∧
    ((sdpVerify env st x label "inf" r).verdict = some true ↔
      ∀ i, i < env.numClasses → i ≠ label →
        sdpCert env (clampPre (env.prebound (.t1 (pinOf env x)) (r / st.coef)).1)
          (clampPre (env.prebound (.t1 (pinOf env x)) (r / st.coef)).2) label i = true) ∧
    ((sdpVerify env st x label "inf" r).verdict ≠ some true →
      (sdpVerify env st x label "inf" r).verdict = some false) := by
  have hm := milpVerify_clean env st x label r h
  have hs := sdpVerify_clean env st x label r h
  refine ⟨?_, ?_, ?_, ?_, ?_, ?_⟩
  · intro a b
    simp [milpCert]
  · rw [hm]
    simpa using all_others_iff env label
      (fun i => milpCert env (env.prebound (.t1 (pinOf env x)) (r / st.coef)).1
        (env.prebound (.t1 (pinOf env x)) (r / st.coef)).2
        (pinOf env x) (r / st.coef) label i)
  · rw [hm]
    cases hb : (others env label).all
        (fun i => milpCert env (env.prebound (.t1 (pinOf env x)) (r / st.coef)).1
          (env.prebound (.t1 (pinOf env x)) (r / st.coef)).2
          (pinOf env x) (r / st.coef) label i) with
    | false => intro _; rfl
    | true => intro hc; exact absurd rfl hc
  · intro a b
    simp [sdpCert]
  · rw [hs]
    simpa using all_others_iff env label
      (fun i => sdpCert env (clampPre (env.prebound (.t1 (pinOf env x)) (r / st.coef)).1)
        (clampPre (env.prebound (.t1 (pinOf env x)) (r / st.coef)).2) label i)
  · rw [hs]
    cases hb : (others env label).all
        (fun i => sdpCert env (clampPre (env.prebound (.t1 (pinOf env x)) (r / st.coef)).1)
          (clampPre (env.prebound (.t1 (pinOf env x)) (r / st.coef)).2) label i) with
    | false => intro _; rfl
    | true => intro hc; exact absurd rfl hc

theorem C2_witness :
    (milpVerify demoEnv demoState demoInput 0 "inf" 5).verdict = some true ∧
    (sdpVerify demoEnv demoState demoInput 0 "inf" 5).verdict = some true ∧
    (milpVerify demoEnvRefuse demoState demoInput 0 "inf" 5).verdict = some false ∧
    (sdpVerify demoEnvRefuse demoState demoInput 0 "inf" 5).verdict = some false := by
  have h1 := C2_solver_sign_conventions demoEnv demoState demoInput 0 5 (by decide)
  have h2 := C2_solver_sign_conventions demoEnvRefuse demoState demoInput 0 5 (by decide)
  refine ⟨h1.2.1.mpr (by decide), h1.2.2.2.2.1.mpr (by decide), ?_, ?_⟩
  · refine h2.2.2.1 ?_
    intro hc
    have := h2.2.1.mp hc 1 (by decide) (by decide)
    exact absurd this (by decide)
  · refine h2.2.2.2.2.2 ?_
    intro hc
    have := h2.2.2.2.2.1.mp hc 1 (by decide) (by decide)
    exact absurd this (by decide)

/-- C3 is refuted on the clean adaptor: `CleanAdaptor.verify` has no
norm-type assertion, so on the unsupported norm type "2" it silently
returns a normal verdict instead of raising. -/
theorem C3_counterexample :
    cleanVerify demoEnv demoInput 0 "2" 1 = some true ∧
    cleanVerify demoEnv demoInput 0 "2" 1 ≠ none := by
  exact ⟨by decide, by decide⟩

/-- C3 (amended): every adaptor except the clean predictor fails loudly
(modelled by a `none` verdict) on any norm type other than "inf"; the
clean predictor ignores the norm type entirely and returns its clean
verdict. -/
theorem C3_amended_norm_guard (env : Env) (st : RAState) (x : Tensor3)
    (label : Nat) (nt : String) (r : ℚ) (h : nt ≠ "inf") :
    (pgdVerify env x label nt r).1 = none ∧
    realVerify env st x label nt r = ⟨none, st, []⟩ ∧
    ibpVerify env st x label nt r = ⟨none, st, []⟩ ∧
    milpVerify env st x label nt r = ⟨none, st, []⟩ ∧
    sdpVerify env st x label nt r = ⟨none, st, []⟩ ∧
    cleanVerify env x label nt r = some (decide (cleanPred env x = label)) :=
  ⟨by simp [pgdVerify, h], realVerify_not_inf env st x label nt r h,
   ibpVerify_not_inf env st x label nt r h, milpVerify_not_inf env st x label nt r h,
   sdpVerify_not_inf env st x label nt r h, rfl⟩

theorem C3_witness :
    (pgdVerify demoEnv demoInput 0 "2" 1).1 = none ∧
    realVerify demoEnv demoState demoInput 0 "2" 1 = ⟨none, demoState, []⟩ ∧
    ibpVerify demoEnv demoState demoInput 0 "2" 1 = ⟨none, demoState, []⟩ ∧
    milpVerify demoEnv demoState demoInput 0 "2" 1 = ⟨none, demoState, []⟩ ∧
    sdpVerify demoEnv demoState demoInput 0 "2" 1 = ⟨none, demoState, []⟩ ∧
    cleanVerify demoEnv demoInput 0 "2" 1 = some (decide (cleanPred demoEnv demoInput = 0)) :=
  C3_amended_norm_guard demoEnv demoState demoInput 0 "2" 1 (by decide)

/-- C4: whenever the arg-max of the clean scores differs from `label`,
every adaptor returns `False` immediately; the only event a
bound-propagation `verify` may emit is the one-time initialization —
`calculate_bound` and the pairwise/solver oracles are never invoked. -/
theorem C4_clean_misclassification (env : Env) (st : RAState) (x : Tensor3)
    (label : Nat) (r : ℚ) (h : cleanPred env x ≠ label) :
    cleanVerify env x label "inf" r = some false ∧
    pgdVerify env x label "inf" r = (some false, []) ∧
    (realVerify env st x label "inf" r).verdict = some false ∧
    (realVerify env st x label "inf" r).trace =
      (if st.new_model.isNone then [TraceEvent.initCall (shapeOf x)] else []) ∧
    (ibpVerify env st x label "inf" r).verdict = some false ∧
    (ibpVerify env st x label "inf" r).trace =
      (if st.new_model.isNone then [TraceEvent.initCall (shapeOf x)] else []) ∧
    (milpVerify env st x label "inf" r).verdict = some false ∧
    (milpVerify env st x label "inf" r).trace =
      (if st.new_model.isNone then [TraceEvent.initCall (shapeOf x)] else []) ∧
    (sdpVerify env st x label "inf" r).verdict = some false ∧
    (sdpVerify env st x label "inf" r).trace =
      (if st.new_model.isNone then [TraceEvent.initCall (shapeOf x)] else []) := by
  refine ⟨by simp [cleanVerify, h], by simp [pgdVerify, h], ?_, ?_, ?_, ?_, ?_, ?_, ?_, ?_⟩
  · rw [realVerify_unclean env st x label r h]
  · rw [realVerify_unclean env st x label r h]
  · rw [ibpVerify_unclean env st x label r h]
  · rw [ibpVerify_unclean env st x label r h]
  · rw [milpVerify_unclean env st x label r h]
  · rw [milpVerify_unclean env st x label r h]
  · rw [sdpVerify_unclean env st x label r h]
  · rw [sdpVerify_unclean env st x label r h]

theorem C4_witness :
    cleanVerify demoEnv demoInput 1 "inf" 3 = some false ∧
    pgdVerify demoEnv demoInput 1 "inf" 3 = (some false, []) ∧
    (realVerify demoEnv demoState demoInput 1 "inf" 3).verdict = some false ∧
    (realVerify demoEnv demoState demoInput 1 "inf" 3).trace =
      (if demoState.new_model.isNone then [TraceEvent.initCall (shapeOf demoInput)]
       else []) := by
  have h := C4_clean_misclassification demoEnv demoState demoInput 1 3 (by decide)
  exact ⟨h.1, h.2.1, h.2.2.1, h.2.2.2.1⟩

/-- C5: at construction `coef` equals `min(orig_sds)` of the
normalization layer when the model starts with one (characterized below
as a member of `orig_sds` bounding it from below) and `1.0` otherwise;
it is stored in the state; every `calculate_bound` call a
bound-propagation `verify` issues carries the scaled radius
`radius / coef`; and no `verify` call changes `coef`. -/
theorem C5_radius_coefficient (env : Env) (st : RAState) (x : Tensor3)
    (label : Nat) (nt : String) (r : ℚ) (nl : NormalizeLayer) :
    (env.firstNorm = some nl →
      initCoef env = listMin nl.orig_sds ∧
      (nl.orig_sds ≠ [] →
        initCoef env ∈ nl.orig_sds ∧ ∀ s ∈ nl.orig_sds, initCoef env ≤ s)) ∧
    (env.firstNorm = none → initCoef env = 1) ∧
    (mkRAState env).coef = initCoef env ∧
    (∀ t ρ, TraceEvent.calcBound t ρ ∈ (realVerify env st x label "inf" r).trace →
      ρ = r / st.coef) ∧
    (∀ t ρ, TraceEvent.calcBound t ρ ∈ (ibpVerify env st x label "inf" r).trace →
      ρ = r / st.coef) ∧
    (∀ t ρ, TraceEvent.calcBound t ρ ∈ (milpVerify env st x label "inf" r).trace →
      ρ = r / st.coef) ∧
    (∀ t ρ, TraceEvent.calcBound t ρ ∈ (sdpVerify env st x label "inf" r).trace →
      ρ = r / st.coef) ∧
    (realVerify env st x label nt r).state.coef = st.coef ∧
    (ibpVerify env st x label nt r).state.coef = st.coef ∧
    (milpVerify env st x label nt r).state.coef = st.coef ∧
    (sdpVerify env st x label nt r).state.coef = st.coef := by
  refine ⟨?_, ?_, rfl, ?_, ?_, ?_, ?_,
    (realVerify_params env st x label nt r).1, (ibpVerify_params env st x label nt r).1,
    (milpVerify_params env st x label nt r).1, (sdpVerify_params env st x label nt r).1⟩
  · intro hf
    have hc : initCoef env = listMin nl.orig_sds := by simp [initCoef, hf]
    refine ⟨hc, fun hne => ⟨?_, ?_⟩⟩
    · rw [hc]; exact listMin_mem nl.orig_sds hne
    · intro s hs; rw [hc]; exact listMin_le nl.orig_sds s hs
  · intro hf; simp [initCoef, hf]
  · exact fun t ρ hm => (realVerify_calcBound_char env st x label r t ρ hm).2
  · exact fun t ρ hm => (ibpVerify_calcBound_char env st x label r t ρ hm).2
  · exact fun t ρ hm => (milpVerify_calcBound_char env st x label r t ρ hm).2
  · exact fun t ρ hm => (sdpVerify_calcBound_char env st x label r t ρ hm).2

theorem C5_witness :
    initCoef demoEnvNorm = 2 ∧
    initCoef demoEnv = 1 ∧
    (mkRAState demoEnvNorm).coef = initCoef demoEnvNorm ∧
    ((5 : ℚ) / (mkRAState demoEnvNorm).coef) = 5 / (mkRAState demoEnvNorm).coef ∧
    (realVerify demoEnvNorm (mkRAState demoEnvNorm) demoInput 0 "inf" 5).state.coef =
      (mkRAState demoEnvNorm).coef := by
  have h := C5_radius_coefficient demoEnvNorm (mkRAState demoEnvNorm) demoInput
    0 "inf" 5 demoNL
  have h0 := C5_radius_coefficient demoEnv demoState demoInput 0 "inf" 5 demoNL
  refine ⟨?_, h0.2.1 rfl, h.2.2.1, ?_, h.2.2.2.2.2.2.2.1⟩
  · rw [(h.1 rfl).1]; rfl
  · exact h.2.2.2.1 (.t1 (pinOf demoEnvNorm demoInput))
      (5 / (mkRAState demoEnvNorm).coef)
      (realVerify_calcBound_present demoEnvNorm (mkRAState demoEnvNorm) demoInput
        0 5 (by decide))

/-- C6: at construction of a bound-propagation adaptor with a
normalization layer, `in_min` is `0.0 - max(orig_means)` divided by
`min(orig_sds)` when that difference is ≤ 0 and by `max(orig_sds)`
otherwise, and `in_max` is `1.0 - min(orig_means)` divided by
`max(orig_sds)` when ≤ 0 and by `min(orig_sds)` otherwise; without the
layer the interval is `[0, 1]`; the pair is stored at construction and no
`verify` call modifies it. -/
theorem C6_input_interval (env : Env) (st : RAState) (x : Tensor3)
    (label : Nat) (nt : String) (r : ℚ) (nl : NormalizeLayer) :
    (env.firstNorm = some nl →
      (initInterval env).1 =
        (if (0 : ℚ) - listMax nl.orig_means ≤ 0
         then ((0 : ℚ) - listMax nl.orig_means) / listMin nl.orig_sds
         else ((0 : ℚ) - listMax nl.orig_means) / listMax nl.orig_sds) ∧
      (initInterval env).2 =
        (if (1 : ℚ) - listMin nl.orig_means ≤ 0
         then ((1 : ℚ) - listMin nl.orig_means) / listMax nl.orig_sds
         else ((1 : ℚ) - listMin nl.orig_means) / listMin nl.orig_sds)) ∧
    (env.firstNorm = none → initInterval env = (0, 1)) ∧
    (mkRAState env).in_min = (initInterval env).1 ∧
    (mkRAState env).in_max = (initInterval env).2 ∧
    (realVerify env st x label nt r).state.in_min = st.in_min ∧
    (realVerify env st x label nt r).state.in_max = st.in_max ∧
    (ibpVerify env st x label nt r).state.in_min = st.in_min ∧
    (ibpVerify env st x label nt r).state.in_max = st.in_max ∧
    (milpVerify env st x label nt r).state.in_min = st.in_min ∧
    (milpVerify env st x label nt r).state.in_max = st.in_max ∧
    (sdpVerify env st x label nt r).state.in_min = st.in_min ∧
    (sdpVerify env st x label nt r).state.in_max = st.in_max := by
  refine ⟨?_, ?_, rfl, rfl,
    (realVerify_params env st x label nt r).2.1, (realVerify_params env st x label nt r).2.2,
    (ibpVerify_params env st x label nt r).2.1, (ibpVerify_params env st x label nt r).2.2,
    (milpVerify_params env st x label nt r).2.1, (milpVerify_params env st x label nt r).2.2,
    (sdpVerify_params env st x label nt r).2.1, (sdpVerify_params env st x label nt r).2.2⟩
  · intro hf
    constructor <;> simp [initInterval, hf]
  · intro hf
    simp [initInterval, hf]

theorem C6_witness :
    (initInterval demoEnvNorm).1 = 0 ∧
    (initInterval demoEnvNorm).2 = 1 / 2 ∧
    initInterval demoEnv = (0, 1) ∧
    (mkRAState demoEnvNorm).in_min = (initInterval demoEnvNorm).1 ∧
    (realVerify demoEnvNorm (mkRAState demoEnvNorm) demoInput 0 "inf" 5).state.in_min =
      (mkRAState demoEnvNorm).in_min := by
  have h := C6_input_interval demoEnvNorm (mkRAState demoEnvNorm) demoInput
    0 "inf" 5 demoNL
  have h0 := C6_input_interval demoEnv demoState demoInput 0 "inf" 5 demoNL
  refine ⟨?_, ?_, h0.2.1 rfl, h.2.2.1, h.2.2.2.2.1⟩
  · rw [(h.1 rfl).1]; norm_num [demoNL, listMax, listMin]
  · rw [(h.1 rfl).2]; norm_num [demoNL, listMax, listMin]

/-- C7 is refuted on the IBP backend: on a concrete run its
`calculate_bound` receives the preprocessed input still in 3-D
channel × height × width shape, not flattened to 1-D. -/
theorem C7_counterexample :
    (ibpVerify demoEnv demoState demoInput 0 "inf" 1).trace =
      [.initCall [1, 1, 1], .calcBound (.t3 demoInput) (1 / demoState.coef),
       .pairwise 0 1] ∧
    Tensor.isFlat (.t3 demoInput) = false :=
  ⟨rfl, rfl⟩

/-- C7 (amended): for the base dispatcher and the MILP and SDP backends
the raw input is converted to model-input space and flattened to 1-D
before `calculate_bound`; the IBP backend converts it but passes it to
`calculate_bound` without flattening, still in its 3-D shape. -/
theorem C7_amended_preprocess (env : Env) (st : RAState) (x : Tensor3)
    (label : Nat) (r : ℚ) (h : cleanPred env x = label) :
    pinOf env x = flatten3 (inputPreprocess env x) ∧
    (∀ t ρ, TraceEvent.calcBound t ρ ∈ (realVerify env st x label "inf" r).trace →
      t = .t1 (pinOf env x)) ∧
    TraceEvent.calcBound (.t1 (pinOf env x)) (r / st.coef) ∈
      (realVerify env st x label "inf" r).trace ∧
    (∀ t ρ, TraceEvent.calcBound t ρ ∈ (milpVerify env st x label "inf" r).trace →
      t = .t1 (pinOf env x)) ∧
    TraceEvent.calcBound (.t1 (pinOf env x)) (r / st.coef) ∈
      (milpVerify env st x label "inf" r).trace ∧
    (∀ t ρ, TraceEvent.calcBound t ρ ∈ (sdpVerify env st x label "inf" r).trace →
      t = .t1 (pinOf env x)) ∧
    TraceEvent.calcBound (.t1 (pinOf env x)) (r / st.coef) ∈
      (sdpVerify env st x label "inf" r).trace ∧
    (∀ t ρ, TraceEvent.calcBound t ρ ∈ (ibpVerify env st x label "inf" r).trace →
      t = .t3 (inputPreprocess env x)) ∧
    TraceEvent.calcBound (.t3 (inputPreprocess env x)) (r / st.coef) ∈
      (ibpVerify env st x label "inf" r).trace ∧
    Tensor.isFlat (.t3 (inputPreprocess env x)) = false :=
  ⟨rfl,
   fun t ρ hm => (realVerify_calcBound_char env st x label r t ρ hm).1,
   realVerify_calcBound_present env st x label r h,
   fun t ρ hm => (milpVerify_calcBound_char env st x label r t ρ hm).1,
   milpVerify_calcBound_present env st x label r h,
   fun t ρ hm => (sdpVerify_calcBound_char env st x label r t ρ hm).1,
   sdpVerify_calcBound_present env st x label r h,
   fun t ρ hm => (ibpVerify_calcBound_char env st x label r t ρ hm).1,
   ibpVerify_calcBound_present env st x label r h,
   rfl⟩

theorem C7_amended_witness :
    pinOf demoEnvNorm demoInput = flatten3 (inputPreprocess demoEnvNorm demoInput) ∧
    TraceEvent.calcBound (.t1 (pinOf demoEnvNorm demoInput))
      (2 / (mkRAState demoEnvNorm).coef) ∈
      (realVerify demoEnvNorm (mkRAState demoEnvNorm) demoInput 0 "inf" 2).trace ∧
    TraceEvent.calcBound (.t3 (inputPreprocess demoEnvNorm demoInput))
      (2 / (mkRAState demoEnvNorm).coef) ∈
      (ibpVerify demoEnvNorm (mkRAState demoEnvNorm) demoInput 0 "inf" 2).trace ∧
    Tensor.isFlat (.t3 (inputPreprocess demoEnvNorm demoInput)) = false := by
  have h := C7_amended_preprocess demoEnvNorm (mkRAState demoEnvNorm) demoInput
    0 2 (by decide)
  exact ⟨h.1, h.2.2.1, h.2.2.2.2.2.2.2.2.1, h.2.2.2.2.2.2.2.2.2⟩

/-- C8: each bound-propagation adaptor initializes exactly once — on a
call finding `new_model` unset it materializes the model and builds the
solver state for the input's shape and emits the one initialization
event, and on every later call it changes neither field and emits no
initialization event; the constructor-set parameters are never touched. -/
theorem C8_lazy_one_time_init (env : Env) (st : RAState) (x : Tensor3)
    (label : Nat) (r : ℚ) :
    ((realVerify env st x label "inf" r).state.new_model =
      (if st.new_model.isNone then some (buildNewModel env x) else st.new_model)) ∧
    ((realVerify env st x label "inf" r).state.solver_shape =
      (if st.new_model.isNone then some (shapeOf x) else st.solver_shape)) ∧
    ((realVerify env st x label "inf" r).trace.filter TraceEvent.isInit =
      (if st.new_model.isNone then [TraceEvent.initCall (shapeOf x)] else [])) ∧
    ((ibpVerify env st x label "inf" r).state.new_model =
      (if st.new_model.isNone then
        some (.original (env.firstNorm.isSome && env.sndSequential))
       else st.new_model)) ∧
    ((ibpVerify env st x label "inf" r).state.solver_shape =
      (if st.new_model.isNone then some (shapeOf x) else st.solver_shape)) ∧
    ((ibpVerify env st x label "inf" r).trace.filter TraceEvent.isInit =
      (if st.new_model.isNone then [TraceEvent.initCall (shapeOf x)] else [])) ∧
    ((milpVerify env st x label "inf" r).state.new_model =
      (if st.new_model.isNone then some (buildNewModel env x) else st.new_model)) ∧
    ((milpVerify env st x label "inf" r).state.solver_shape =
      (if st.new_model.isNone then some (shapeOf x) else st.solver_shape)) ∧
    ((milpVerify env st x label "inf" r).trace.filter TraceEvent.isInit =
      (if st.new_model.isNone then [TraceEvent.initCall (shapeOf x)] else [])) ∧
    ((sdpVerify env st x label "inf" r).state.new_model =
      (if st.new_model.isNone then some (buildNewModel env x) else st.new_model)) ∧
    ((sdpVerify env st x label "inf" r).state.solver_shape =
      (if st.new_model.isNone then some (shapeOf x) else st.solver_shape)) ∧
    ((sdpVerify env st x label "inf" r).trace.filter TraceEvent.isInit =
      (if st.new_model.isNone then [TraceEvent.initCall (shapeOf x)] else [])) ∧
    (realVerify env st x label "inf" r).state.coef = st.coef ∧
    (realVerify env st x label "inf" r).state.in_min = st.in_min ∧
    (realVerify env st x label "inf" r).state.in_max = st.in_max ∧
    (ibpVerify env st x label "inf" r).state.coef = st.coef ∧
    (milpVerify env st x label "inf" r).state.coef = st.coef ∧
    (sdpVerify env st x label "inf" r).state.coef = st.coef := by
  exact ⟨(realVerify_init_once env st x label r).1,
    (realVerify_init_once env st x label r).2.1,
    (realVerify_init_once env st x label r).2.2,
    (ibpVerify_init_once env st x label r).1,
    (ibpVerify_init_once env st x label r).2.1,
    (ibpVerify_init_once env st x label r).2.2,
    (milpVerify_init_once env st x label r).1,
    (milpVerify_init_once env st x label r).2.1,
    (milpVerify_init_once env st x label r).2.2,
    (sdpVerify_init_once env st x label r).1,
    (sdpVerify_init_once env st x label r).2.1,
    (sdpVerify_init_once env st x label r).2.2,
    (realVerify_params env st x label "inf" r).1,
    (realVerify_params env st x label "inf" r).2.1,
    (realVerify_params env st x label "inf" r).2.2,
    (ibpVerify_params env st x label "inf" r).1,
    (milpVerify_params env st x label "inf" r).1,
    (sdpVerify_params env st x label "inf" r).1⟩

/-- C9: at radius 0 every backend's verdict equals the clean-correctness
check alone — `True` exactly when the arg-max of the clean scores equals
`label`; the PGD adaptor takes the zero-radius fast path, returning
before the attack is ever run.  For the bound-propagation backends the
statement is relative to `ZeroRadiusExact`, the spec-modelled zero-radius
behaviour of the external bound engines, together with the
well-formedness assumptions that the score vector covers the dataset's
classes and that the coefficient is nonzero (a zero divisor would raise
in the original). -/
theorem C9_zero_radius_identity (env : Env) (st : RAState) (x : Tensor3)
    (label : Nat) (hn : env.numClasses ≤ (env.modelScores x).length)
    (hz : ZeroRadiusExact env x label) (_hcoef : st.coef ≠ 0) :
    cleanVerify env x label "inf" 0 = some (decide (cleanPred env x = label)) ∧
    (pgdVerify env x label "inf" 0).1 = some (decide (cleanPred env x = label)) ∧
    (pgdVerify env x label "inf" 0).2 = [] ∧
    (realVerify env st x label "inf" 0).verdict =
      some (decide (cleanPred env x = label)) ∧
    (ibpVerify env st x label "inf" 0).verdict =
      some (decide (cleanPred env x = label)) ∧
    (milpVerify env st x label "inf" 0).verdict =
      some (decide (cleanPred env x = label)) ∧
    (sdpVerify env st x label "inf" 0).verdict =
      some (decide (cleanPred env x = label)) := by
  by_cases h : cleanPred env x = label
  · have hle : ∀ i, i < env.numClasses →
        (env.modelScores x).getD i 0 ≤ (env.modelScores x).getD label 0 := by
      intro i hi
      have hx := argmax_ge (env.modelScores x) i (lt_of_lt_of_le hi hn)
      have h' : argmax (env.modelScores x) = label := h
      rwa [h'] at hx
    refine ⟨rfl, by simp [pgdVerify, h], by simp [pgdVerify, h], ?_, ?_, ?_, ?_⟩
    · rw [realVerify_clean env st x label 0 h]
      simp only [zero_div]
      have hall := (all_others_iff env label
        (fun i => env.boundCert (.t1 (pinOf env x)) 0 label i)).mpr
        (fun i hi hne => by rw [hz.bound1 i hi hne]; exact decide_eq_true (hle i hi))
      rw [hall]
      simp [h]
    · rw [ibpVerify_clean env st x label 0 h]
      simp only [zero_div]
      have hall := (all_others_iff env label
        (fun i => env.boundCert (.t3 (inputPreprocess env x)) 0 label i)).mpr
        (fun i hi hne => by rw [hz.bound3 i hi hne]; exact decide_eq_true (hle i hi))
      rw [hall]
      simp [h]
    · rw [milpVerify_clean env st x label 0 h]
      simp only [zero_div]
      have hall := (all_others_iff env label
        (fun i => milpCert env (env.prebound (.t1 (pinOf env x)) 0).1
          (env.prebound (.t1 (pinOf env x)) 0).2 (pinOf env x) 0 label i)).mpr
        (fun i hi hne => by rw [hz.milp i hi hne]; exact decide_eq_true (hle i hi))
      rw [hall]
      simp [h]
    · rw [sdpVerify_clean env st x label 0 h]
      simp only [zero_div]
      have hall := (all_others_iff env label
        (fun i => sdpCert env (clampPre (env.prebound (.t1 (pinOf env x)) 0).1)
          (clampPre (env.prebound (.t1 (pinOf env x)) 0).2) label i)).mpr
        (fun i hi hne => by rw [hz.sdp i hi hne]; exact decide_eq_true (hle i hi))
      rw [hall]
      simp [h]
  · refine ⟨rfl, by simp [pgdVerify, h], by simp [pgdVerify, h], ?_, ?_, ?_, ?_⟩
    · rw [realVerify_unclean env st x label 0 h]; simp [h]
    · rw [ibpVerify_unclean env st x label 0 h]; simp [h]
    · rw [milpVerify_unclean env st x label 0 h]; simp [h]
    · rw [sdpVerify_unclean env st x label 0 h]; simp [h]

theorem C9_witness :
    cleanVerify demoEnv demoInput 0 "inf" 0 =
      some (decide (cleanPred demoEnv demoInput = 0)) ∧
    (pgdVerify demoEnv demoInput 0 "inf" 0).1 =
      some (decide (cleanPred demoEnv demoInput = 0)) ∧
    (pgdVerify demoEnv demoInput 0 "inf" 0).2 = [] ∧
    (realVerify demoEnv demoState demoInput 0 "inf" 0).verdict =
      some (decide (cleanPred demoEnv demoInput = 0)) ∧
    (ibpVerify demoEnv demoState demoInput 0 "inf" 0).verdict =
      some (decide (cleanPred demoEnv demoInput = 0)) ∧
    (milpVerify demoEnv demoState demoInput 0 "inf" 0).verdict =
      some (decide (cleanPred demoEnv demoInput = 0)) ∧
    (sdpVerify demoEnv demoState demoInput 0 "inf" 0).verdict =
      some (decide (cleanPred demoEnv demoInput = 0)) :=
  C9_zero_radius_identity demoEnv demoState demoInput 0 (by decide)
    ⟨fun _ _ _ => rfl,
     fun _ _ _ => rfl,
     by
       intro i h1 h2
       have h1' : i < 2 := h1
       have hi : i = 1 := by omega
       subst hi
       decide,
     by
       intro i h1 h2
       have h1' : i < 2 := h1
       have hi : i = 1 := by omega
       subst hi
       decide⟩
    (by decide)

/-- C10: in the SDP adaptor's `verify`, every per-class `run` receives
exactly the clamped pre-bound lists: the entry at each layer index above
0 is the elementwise `max(·, 0)` of the corresponding pre-bound vector
while the index-0 (input-layer) entry is passed through unchanged; the
unclamped pre-bounds are never handed to the SDP backend. -/
theorem C10_sdp_prebound_clamp (env : Env) (st : RAState) (x : Tensor3)
    (label : Nat) (r : ℚ) (h : cleanPred env x = label) :
    (∀ bl bu a b,
      TraceEvent.sdpRun bl bu a b ∈ (sdpVerify env st x label "inf" r).trace →
        bl = clampPre (env.prebound (.t1 (pinOf env x)) (r / st.coef)).1 ∧
        bu = clampPre (env.prebound (.t1 (pinOf env x)) (r / st.coef)).2) ∧
    (∀ l : List (List ℚ), (clampPre l).length = l.length) ∧
    (∀ (l : List (List ℚ)) (i : Nat), i < l.length →
      (clampPre l).getD i [] =
        if 0 < i then (l.getD i []).map (fun v => max v 0) else l.getD i []) := by
  refine ⟨?_, clampPre_length, clampPre_getD⟩
  intro bl bu a b hm
  rw [sdpVerify_clean env st x label r h] at hm
  rcases hnm : st.new_model with _ | m <;> rw [hnm] at hm <;> simp at hm <;>
    (obtain ⟨i, _, hbl, hbu, _, _⟩ := hm; exact ⟨hbl.symm, hbu.symm⟩)

theorem C10_witness :
    (([[(1 : ℚ)]] : List (List ℚ)) =
      clampPre (demoEnv.prebound (.t1 (pinOf demoEnv demoInput))
        (1 / demoState.coef)).1) ∧
    (clampPre [[(-1 : ℚ)], [(-2 : ℚ)]]).getD 0 [] = [(-1 : ℚ)] ∧
    (clampPre [[(-1 : ℚ)], [(-2 : ℚ)]]).getD 1 [] = [(0 : ℚ)] := by
  have h := C10_sdp_prebound_clamp demoEnv demoState demoInput 0 1 (by decide)
  refine ⟨(h.1 [[1]] [[1]] 0 1 (by decide)).1, ?_, ?_⟩
  · rw [h.2.2 [[(-1 : ℚ)], [(-2 : ℚ)]] 0 (by decide)]
    decide
  · rw [h.2.2 [[(-1 : ℚ)], [(-2 : ℚ)]] 1 (by decide)]
    decide

end VeriGauge
